import Mathlib

/-!
Shallow embedding of the EEG recording inventory pipeline
(clip_creator.py and src/file_selector.py).

Modelling conventions:
- A recording timestamp is a number of minutes since an arbitrary epoch
  (a calendar day is 1440 minutes, so the calendar date of a timestamp t
  is t / 1440).
- The external codec (MicromedTRC) is a black box: opening a file either
  fails (any exception, caught by the bare except in the source) or
  yields the header metadata below.
- Sampling frequency and duration are rationals; the source uses floats,
  but no claim depends on float rounding.
- CSV files are modelled at row granularity (a list of row values); the
  filesystem is modelled explicitly where a claim mentions it.
-/

/-- Header metadata and first-channel sample count obtained from a
successful MicromedTRC open (get_sfreq, get_header, get_data). -/
structure TrcMeta where
  sfreq : ℚ
  recording_date : ℕ
  ch_names : List String
  nb_of_channels : ℕ
  n_samples : ℕ
deriving DecidableEq

/-- Result of opening one file with the codec: metadata, or a read error
(the source catches every exception kind with a bare except). -/
abbrev TrcRead := Except Unit TrcMeta

/-- One row of the files_info table built by get_valid_files_info in
clip_creator.py (also one row of the manifest CSV read back by
file_selector.py). -/
structure FileRow where
  directory : String
  filepath : String
  filename : String
  recording_date : ℕ
  sampling_frequency : ℚ
  duration_h : ℚ
  number_of_channels : ℕ
  day : ℕ
deriving DecidableEq

/-- Ordering of rows by recording timestamp, the key of the
sort_values call in get_valid_files_info. -/
def tsLe (a b : FileRow) : Prop := a.recording_date ≤ b.recording_date

instance : DecidableRel tsLe := fun _ _ => Nat.decLe _ _

instance : IsTotal FileRow tsLe := ⟨fun _ _ => Nat.le_total _ _⟩

instance : IsTrans FileRow tsLe := ⟨fun _ _ _ => Nat.le_trans⟩

/-- Lexicographic comparison of character lists by code point, the
order np.sort uses on path strings. -/
def charsLeb : List Char → List Char → Bool
  | [], _ => true
  | _ :: _, [] => false
  | a :: as, b :: bs =>
    if a.toNat < b.toNat then true
    else if b.toNat < a.toNat then false
    else charsLeb as bs

/-- Lexicographic ordering of the file listing, modelling np.sort over
the glob result in clip_creator.py. -/
def pathLe (a b : String × TrcRead) : Prop := charsLeb a.1.data b.1.data = true

instance : DecidableRel pathLe := fun a b =>
  inferInstanceAs (Decidable (charsLeb a.1.data b.1.data = true))

/-- np.sort of the glob listing of a directory. -/
def sortPaths (files : List (String × TrcRead)) : List (String × TrcRead) :=
  List.insertionSort pathLe files

/-- Per-file body of the loop in get_valid_files_info: open the file,
skip it on a codec error (bare except), skip it when the sampling
frequency is at most 1000 Hz, otherwise build a row.  An empty channel
list makes the ch_names[0] access raise, which the same bare except
catches, so it also yields no row.  The day field is a placeholder
(the source first stores recording_date.day and then overwrites the
whole column after sorting). -/
def readRow (dir : String) (f : String × TrcRead) : Option FileRow :=
  match f.2 with
  | Except.error _ => none
  | Except.ok m =>
    if m.sfreq > 1000 then
      match m.ch_names with
      | [] => none
      | _ :: _ =>
        some { directory := dir
               filepath := dir ++ "/" ++ f.1
               filename := f.1
               recording_date := m.recording_date
               sampling_frequency := m.sfreq
               duration_h := (m.n_samples : ℚ) / m.sfreq / 3600
               number_of_channels := m.nb_of_channels
               day := 0 }
    else none

/-- Rows surviving the per-file loop, in processing order. -/
def rawRows (dir : String) (files : List (String × TrcRead)) : List FileRow :=
  (sortPaths files).filterMap (readRow dir)

/-- The table after sort_values on the recording timestamp. -/
def sortedRows (dir : String) (files : List (String × TrcRead)) : List FileRow :=
  List.insertionSort tsLe (rawRows dir files)

/-- Minimum of the recording_date column (pandas .min over the table). -/
def minTs : List FileRow → ℕ
  | [] => 0
  | r :: rs => rs.foldl (fun m x => min m x.recording_date) r.recording_date

/-- get_valid_files_info of clip_creator.py: per-file loop with error
isolation, sort by recording timestamp, then recompute the day column
as (recording_date - earliest recording_date).days, where the
subtraction is on full timestamps and .days floors to whole 24 h
periods (1440 minutes). -/
def get_valid_files_info (dir : String) (files : List (String × TrcRead)) : List FileRow :=
  match sortedRows dir files with
  | [] => []
  | r0 :: rest =>
    let earliest := minTs (r0 :: rest)
    (r0 :: rest).map (fun r => { r with day := (r.recording_date - earliest) / 1440 })

/-! ## Directory Scanner (get_valid_directories, clip_creator.py) -/

/-- Sorting of directory strings, part of the np.unique model. -/
def strLe (a b : String) : Prop := charsLeb a.data b.data = true

instance : DecidableRel strLe := fun a b =>
  inferInstanceAs (Decidable (charsLeb a.data b.data = true))

/-- np.unique over a list of strings: deduplicate and sort. -/
def uniqueStrs (l : List String) : List String :=
  List.insertionSort strLe l.dedup

/-- Parent directory of a path string (pathlib .parent). -/
def parentDir (p : String) : String :=
  String.intercalate "/" (p.splitOn "/").dropLast

/-- Observable effects of one get_valid_directories call: the returned
table rows, how many codec opens and recursive directory scans the call
performed, and the cache file contents after the call (the CSV is
modelled at row granularity, one directory string per row). -/
structure ScanEffects where
  result : List String
  codecOpens : ℕ
  dirScans : ℕ
  cacheAfter : Option (List String)
deriving DecidableEq

/-- The scan branch of get_valid_directories: glob every .trc file under
the root, sort, open each with the codec, keep the parent directory of
every file whose sampling frequency exceeds 1000 Hz (read failures are
skipped by the bare except), then np.unique the directory list. -/
def scanDirs (files : List (String × TrcRead)) : List String :=
  uniqueStrs ((sortPaths files).filterMap (fun f =>
    match f.2 with
    | Except.ok m => if m.sfreq > 1000 then some (parentDir f.1) else none
    | Except.error _ => none))

/-- get_valid_directories of clip_creator.py.  The cache argument is the
contents of USB_Stick_valid_directories.csv when that file exists.  When
the cache exists the call only reads it back; otherwise it scans the
tree (one recursive glob, one codec open per file), writes the cache and
returns the scanned rows. -/
def get_valid_directories (cache : Option (List String))
    (files : List (String × TrcRead)) : ScanEffects :=
  match cache with
  | some s => { result := s, codecOpens := 0, dirScans := 0, cacheAfter := some s }
  | none =>
    let dirs := scanDirs files
    { result := dirs, codecOpens := files.length, dirScans := 1, cacheAfter := some dirs }

/-! ## Per-Subject Sampler (main block of src/file_selector.py) -/

/-- files_info_df.directory.str.replace(os.sep, character) with the
hyphen as replacement: the normalized grouping key.  os.sep is a single
character on every platform, so the replacement is modelled per
character. -/
def normKey (sep : Char) (d : String) : String :=
  String.mk (d.data.map (fun c => if c = sep then '-' else c))

/-- pandas .max over the day column of a group (groups are nonempty in
the source, so the base value 0 is never the result by itself). -/
def maxDay (rows : List FileRow) : ℕ :=
  rows.foldl (fun m r => max m r.day) 0

/-- day_to_select: starts at 3 and falls back to the maximum day of the
group when that maximum is below 3. -/
def targetDay (rows : List FileRow) : ℕ :=
  if maxDay rows < 3 then maxDay rows else 3

/-- The candidate rows of a group: day equal to day_to_select and
duration over four hours (the np.logical_and filter). -/
def dayCandidates (rows : List FileRow) : List FileRow :=
  rows.filter (fun r => r.day == targetDay rows && decide (r.duration_h > 4))

/-- The fixed random_state passed to pandas .sample in the source. -/
def SAMPLER_SEED : ℕ := 42

/-- pandas .sample(n=1, random_state=seed) on a nonempty candidate list:
one row drawn at an index fully determined by the seed and the list.
The exact index function of the numpy PRNG is modelled as seed mod
length; every property proved below (membership, single selection,
determinism) is independent of which in-bounds index the PRNG yields. -/
def sample1 (seed : ℕ) (a : FileRow) (rest : List FileRow) : FileRow :=
  (a :: rest).getD (seed % (a :: rest).length) a

/-- Per-group body of the sampler loop: empty candidate set gives no
selection (the logged skip), a single candidate is taken as is, several
candidates go through .sample(n=1, random_state=42). -/
def select_for_group (rows : List FileRow) : Option FileRow :=
  match dayCandidates rows with
  | [] => none
  | [r] => some r
  | a :: b :: rest => some (sample1 SAMPLER_SEED a (b :: rest))

/-- The rows of one patient group: manifest rows whose normalized
directory key equals the group key. -/
def groupRows (sep : Char) (rows : List FileRow) (key : String) : List FileRow :=
  rows.filter (fun r => normKey sep r.directory == key)

/-- pats_ls = np.unique(dir_ls): the sorted distinct normalized keys. -/
def patKeys (sep : Char) (rows : List FileRow) : List String :=
  uniqueStrs (rows.map (fun r => normKey sep r.directory))

/-- The sampler loop over all patient groups: concatenation of the
per-group selections. -/
def select_rows (sep : Char) (rows : List FileRow) : List FileRow :=
  (patKeys sep rows).filterMap (fun k => select_for_group (groupRows sep rows k))

/-- The main block of src/file_selector.py.  When the manifest CSV
exists its rows are grouped and sampled and the selection is written
(Except.ok is the successful to_csv).  When it does not exist, the else
branch only prints and the later clae_files_df.to_csv line raises
NameError, because clae_files_df was only ever assigned inside the
if branch: the run ends with an unhandled error and writes nothing. -/
def sampler_main (sep : Char) (manifest : Option (List FileRow)) :
    Except String (List FileRow) :=
  match manifest with
  | some rows => Except.ok (select_rows sep rows)
  | none => Except.error "NameError: name clae_files_df is not defined"

/-! ## Selected-File Copier (copy_selecetd_files, src/file_selector.py) -/

instance {ε α : Type _} [DecidableEq ε] [DecidableEq α] : DecidableEq (Except ε α) :=
  fun a b =>
    match a, b with
    | Except.error e, Except.error f => decidable_of_iff (e = f) (by simp)
    | Except.ok x, Except.ok y => decidable_of_iff (x = y) (by simp)
    | Except.error _, Except.ok _ => Decidable.isFalse (fun h => Except.noConfusion h)
    | Except.ok _, Except.error _ => Decidable.isFalse (fun h => Except.noConfusion h)

/-- A source file seen by the copier: its path components (the pathlib
parts) and the result of a fresh codec open. -/
structure SrcFile where
  parts : List String
  read : Except Unit ℚ
deriving DecidableEq

/-- path.parts[-2] and path.parts[-1]: the subject directory name and
the original filename.  The source also evaluates group =
path.parts[-4] inside the same try block before opening the codec, so
any path with fewer than FOUR components raises IndexError (at
parts[-2] or parts[-4]), which the bare except catches, skipping the
file; extraction succeeds only on paths of at least four components. -/
def subjOf (parts : List String) : Option (String × String) :=
  match parts.reverse with
  | fname :: subj :: _ :: _ :: _ => some (subj, fname)
  | _ => none

/-- str(path).replace(space, underscore) applied to a whole path. -/
def replaceSpaces (s : String) : String :=
  String.mk (s.data.map (fun c => if c = ' ' then '_' else c))

/-- The destination path built by the source: data_out_path / new_fn
turned into a string and THEN space-sanitized, so the replacement hits
the output directory part of the path as well as the filename. -/
def destPath (out subj fname : String) : String :=
  replaceSpaces (out ++ "/" ++ (subj ++ "_" ++ fname))

/-- The source path string of a file (used as the copied content tag). -/
def srcPathStr (f : SrcFile) : String :=
  String.intercalate "/" f.parts

/-- The output directory state: an association list from destination
path to the source path whose bytes were copied there. -/
abbrev OutFs := List (String × String)

/-- Path lookup in the output directory state. -/
def fsLookup : OutFs → String → Option String
  | [], _ => none
  | (k, v) :: rest, p => if k = p then some v else fsLookup rest p

/-- Per-file body of the copy loop: extract subject, filename and group
(paths shallower than four components are skipped via IndexError), open
with the codec (skip on error), and when the sampling frequency exceeds
1000 Hz copy to the sanitized destination unless a file already exists
there (os.path.isfile guard). -/
def copyStep (out : String) (fs : OutFs) (f : SrcFile) : OutFs :=
  match subjOf f.parts, f.read with
  | some (subj, fname), Except.ok sf =>
    if sf > 1000 then
      let dest := destPath out subj fname
      match fsLookup fs dest with
      | none => fs ++ [(dest, srcPathStr f)]
      | some _ => fs
    else fs
  | _, _ => fs

/-- copy_selecetd_files of src/file_selector.py, second loop: fold the
per-file copy over the glob listing.  (The first loop of the source only
counts qualifying files for the progress denominator and changes no
state.) -/
def copy_selecetd_files (out : String) (files : List SrcFile) (fs : OutFs) : OutFs :=
  files.foldl (copyStep out) fs

/-- A file qualifies for copying: the subject/group extraction succeeds
(the path has at least four components, so the parts[-4] access does
not raise), the fresh open succeeds, and the sampling frequency exceeds
1000 Hz. -/
def qualifies (f : SrcFile) : Bool :=
  match subjOf f.parts, f.read with
  | some _, Except.ok sf => decide (sf > 1000)
  | _, _ => false

/-- The destination a file would be copied to, when determined. -/
def destOf (out : String) (f : SrcFile) : Option String :=
  match subjOf f.parts with
  | some (subj, fname) => some (destPath out subj fname)
  | none => none

/-! ## Concrete example inputs used by counterexamples and witnesses -/

/-- Metadata of a 5 h, 2000 Hz recording starting at 23:00 of day 0
(minute 1380). -/
def lateEveningMeta : TrcMeta :=
  { sfreq := 2000, recording_date := 1380, ch_names := ["Fp1"],
    nb_of_channels := 8, n_samples := 36000000 }

/-- Metadata of a 5 h, 2000 Hz recording starting at 01:00 of day 1
(minute 1500), two hours after lateEveningMeta. -/
def earlyMorningMeta : TrcMeta :=
  { sfreq := 2000, recording_date := 1500, ch_names := ["Fp1"],
    nb_of_channels := 8, n_samples := 36000000 }

/-- Two readable recordings whose timestamps straddle midnight. -/
def midnightFiles : List (String × TrcRead) :=
  [("a.trc", Except.ok lateEveningMeta), ("b.trc", Except.ok earlyMorningMeta)]

/-- A corrupt recording file: the codec open raises. -/
def corruptFile : String × TrcRead := ("bad.trc", Except.error ())

/-- A readable 2000 Hz recording file. -/
def goodFileA : String × TrcRead := ("a.trc", Except.ok lateEveningMeta)

/-- A second readable 2000 Hz recording file. -/
def goodFileB : String × TrcRead := ("b.trc", Except.ok earlyMorningMeta)

/-- A template manifest row (2000 Hz, 10 h, day 5). -/
def rowDay5 : FileRow :=
  { directory := "p", filepath := "p/f5", filename := "f5", recording_date := 7200,
    sampling_frequency := 2000, duration_h := 10, number_of_channels := 8, day := 5 }

/-- A short day-0 row of the same subject. -/
def rowDay0 : FileRow :=
  { rowDay5 with filepath := "p/f0", filename := "f0", recording_date := 0,
                 duration_h := 1, day := 0 }

/-- A group that spans beyond day 3 (days 0 and 5) but has no day-3 row
at all; its day-5 row lasts 10 h. -/
def groupBeyondDay3 : List FileRow := [rowDay0, rowDay5]

/-- A short day-1 row: max day of its group is 1, below 3. -/
def rowDay1short : FileRow :=
  { rowDay5 with filepath := "p/f1", filename := "f1", recording_date := 1440,
                 duration_h := 1, day := 1 }

/-- A group whose maximum day is 1 and whose rows all last at most 4 h. -/
def groupMaxDay1 : List FileRow := [rowDay0, rowDay1short]

/-- A 5 h day-3 row. -/
def rowDay3a : FileRow :=
  { rowDay5 with filepath := "p/f3a", filename := "f3a", recording_date := 4320,
                 duration_h := 5, day := 3 }

/-- A second, 6 h day-3 row of the same subject. -/
def rowDay3b : FileRow :=
  { rowDay5 with filepath := "p/f3b", filename := "f3b", recording_date := 4400,
                 duration_h := 6, day := 3 }

/-- A 2 h day-5 row (too short to qualify). -/
def rowDay5short : FileRow :=
  { rowDay5 with filepath := "p/f5s", filename := "f5s", duration_h := 2 }

/-- The spec example group: days 0, 1, 3, 3, 5 where only the two day-3
rows last over 4 h. -/
def groupTwoDay3 : List FileRow :=
  [rowDay0, rowDay1short, rowDay3a, rowDay3b, rowDay5short]

/-- A single-candidate group: one 5 h day-3 row next to a short day-0
row. -/
def groupOneDay3 : List FileRow := [rowDay0, rowDay3a]

/-- A row inside directory a/b-c (the hyphen is part of the directory
name). -/
def rowDirSlashHyphen : FileRow :=
  { rowDay5 with directory := "a/b-c", filepath := "a/b-c/f5", day := 3, duration_h := 5 }

/-- A row inside the different directory a-b/c. -/
def rowDirHyphenSlash : FileRow :=
  { rowDay5 with directory := "a-b/c", filepath := "a-b/c/f5", filename := "g5",
                 recording_date := 4321, day := 3, duration_h := 5 }

/-- A manifest whose two rows live in two distinct directories that
collide after separator normalization. -/
def collidingManifest : List FileRow := [rowDirSlashHyphen, rowDirHyphenSlash]

/-- Two rows of one subject directory a/b, hyphen-free. -/
def rowAB1 : FileRow :=
  { rowDay5 with directory := "a/b", filepath := "a/b/f1", filename := "f1", day := 3,
                 duration_h := 5 }

/-- Second row of directory a/b. -/
def rowAB2 : FileRow :=
  { rowDay5 with directory := "a/b", filepath := "a/b/f2", filename := "f2",
                 recording_date := 7300, day := 3, duration_h := 6 }

/-- A hyphen-free manifest with one directory and two rows. -/
def hyphenFreeManifest : List FileRow := [rowAB1, rowAB2]

/-- A qualifying source file for the copier: subject directory Pat 1,
filename rec 1.trc, 2000 Hz on a fresh open. -/
def copierFile : SrcFile :=
  { parts := ["D:", "group", "week", "Pat 1", "rec 1.trc"], read := Except.ok 2000 }

/-- An output directory state holding one unrelated file. -/
def preexistingFs : OutFs := [("keep.trc", "old")]

/-! ## Helper lemmas -/

theorem length_filterMap_eq_countP {α β : Type _} (g : α → Option β) :
    ∀ l : List α, (l.filterMap g).length = l.countP (fun a => (g a).isSome) := by
  intro l
  induction l with
  | nil => rfl
  | cons a t ih => cases h : g a <;> simp [List.filterMap_cons, h, List.countP_cons, ih]

theorem minTs_map {g : FileRow → FileRow}
    (hg : ∀ r, (g r).recording_date = r.recording_date) (l : List FileRow) :
    minTs (l.map g) = minTs l := by
  cases l with
  | nil => rfl
  | cons r rs => simp [minTs, List.foldl_map, hg]

theorem sortedRows_perm (dir : String) (files : List (String × TrcRead)) :
    (sortedRows dir files).Perm (rawRows dir files) :=
  List.perm_insertionSort tsLe (rawRows dir files)

theorem gvfi_eq_map (dir : String) (files : List (String × TrcRead)) :
    get_valid_files_info dir files =
      (sortedRows dir files).map
        (fun r => { r with day := (r.recording_date - minTs (sortedRows dir files)) / 1440 }) := by
  unfold get_valid_files_info
  cases h : sortedRows dir files with
  | nil => rfl
  | cons r0 rest => rfl

theorem gvfi_length (dir : String) (files : List (String × TrcRead)) :
    (get_valid_files_info dir files).length =
      files.countP (fun f => (readRow dir f).isSome) := by
  rw [gvfi_eq_map, List.length_map, (sortedRows_perm dir files).length_eq]
  rw [rawRows, length_filterMap_eq_countP]
  exact (List.perm_insertionSort pathLe files).countP_eq _

theorem sample1_mem (seed : ℕ) (a : FileRow) (rest : List FileRow) :
    sample1 seed a rest ∈ a :: rest := by
  unfold sample1
  have hlt : seed % (a :: rest).length < (a :: rest).length :=
    Nat.mod_lt _ (by simp)
  rw [List.getD_eq_getElem _ _ hlt]
  exact List.getElem_mem _

theorem select_for_group_mem {rows : List FileRow} {r : FileRow}
    (h : select_for_group rows = some r) : r ∈ dayCandidates rows := by
  unfold select_for_group at h
  cases hc : dayCandidates rows with
  | nil => rw [hc] at h; exact absurd h (by simp)
  | cons a tl =>
    cases tl with
    | nil =>
      rw [hc] at h
      simp only [Option.some.injEq] at h
      simp [← h]
    | cons b tl2 =>
      rw [hc] at h
      simp only [Option.some.injEq] at h
      rw [← h]
      exact sample1_mem SAMPLER_SEED a (b :: tl2)

theorem mem_groupRows {sep : Char} {rows : List FileRow} {k : String} {r : FileRow}
    (h : r ∈ groupRows sep rows k) : r ∈ rows ∧ normKey sep r.directory = k := by
  unfold groupRows at h
  have h2 := List.mem_filter.mp h
  exact ⟨h2.1, by simpa using h2.2⟩

theorem normChar_inj {sep c1 c2 : Char} (h1 : c1 ≠ '-') (h2 : c2 ≠ '-')
    (h : (if c1 = sep then '-' else c1) = (if c2 = sep then '-' else c2)) : c1 = c2 := by
  split_ifs at h with e1 e2 e2
  · exact e1.trans e2.symm
  · exact absurd h.symm h2
  · exact absurd h h1
  · exact h

theorem map_normChar_inj (sep : Char) :
    ∀ l1 l2 : List Char, ('-' : Char) ∉ l1 → ('-' : Char) ∉ l2 →
      l1.map (fun c => if c = sep then '-' else c) =
        l2.map (fun c => if c = sep then '-' else c) →
      l1 = l2 := by
  intro l1
  induction l1 with
  | nil =>
    intro l2 _ _ h
    cases l2 with
    | nil => rfl
    | cons b t2 => exact absurd h (by simp)
  | cons a t ih =>
    intro l2 h1 h2 h
    cases l2 with
    | nil => exact absurd h (by simp)
    | cons b t2 =>
      simp only [List.map_cons, List.cons.injEq] at h
      have ha : a ≠ '-' := fun e => h1 (e ▸ List.mem_cons_self a t)
      have hb : b ≠ '-' := fun e => h2 (e ▸ List.mem_cons_self b t2)
      have ht1 : ('-' : Char) ∉ t := fun e => h1 (List.mem_cons_of_mem a e)
      have ht2 : ('-' : Char) ∉ t2 := fun e => h2 (List.mem_cons_of_mem b e)
      rw [normChar_inj ha hb h.1, ih t2 ht1 ht2 h.2]

theorem normKey_inj {sep : Char} {d1 d2 : String} (h1 : ('-' : Char) ∉ d1.data)
    (h2 : ('-' : Char) ∉ d2.data) (h : normKey sep d1 = normKey sep d2) : d1 = d2 := by
  have hd : d1.data = d2.data :=
    map_normChar_inj sep d1.data d2.data h1 h2 (congrArg String.data h)
  exact String.ext hd

theorem replaceSpaces_append (a b : String) :
    replaceSpaces (a ++ b) = replaceSpaces a ++ replaceSpaces b := by
  apply String.ext
  simp [replaceSpaces, String.data_append]

theorem replaceSpaces_of_no_space {a : String} (h : (' ' : Char) ∉ a.data) :
    replaceSpaces a = a := by
  apply String.ext
  show a.data.map _ = a.data
  have hc : ∀ c ∈ a.data, (if c = ' ' then '_' else c) = c := by
    intro c hcm
    rw [if_neg (fun e : c = ' ' => h (e ▸ hcm))]
  calc a.data.map (fun c => if c = ' ' then '_' else c)
      = a.data.map id := List.map_congr_left hc
    _ = a.data := List.map_id a.data

theorem fsLookup_append_left {fs l : OutFs} {p v : String}
    (h : fsLookup fs p = some v) : fsLookup (fs ++ l) p = some v := by
  induction fs with
  | nil => exact absurd h (by simp [fsLookup])
  | cons kv rest ih =>
    obtain ⟨k, w⟩ := kv
    by_cases hk : k = p
    · simp only [fsLookup, if_pos hk] at h
      simpa only [List.cons_append, fsLookup, if_pos hk] using h
    · simp only [fsLookup, if_neg hk] at h
      simpa only [List.cons_append, fsLookup, if_neg hk] using ih h

theorem fsLookup_append_new {fs : OutFs} {p v : String}
    (h : fsLookup fs p = none) : fsLookup (fs ++ [(p, v)]) p = some v := by
  induction fs with
  | nil => simp [fsLookup]
  | cons kv rest ih =>
    obtain ⟨k, w⟩ := kv
    by_cases hk : k = p
    · simp only [fsLookup, if_pos hk] at h
      exact absurd h (by simp)
    · simp only [fsLookup, if_neg hk] at h
      simpa only [List.cons_append, fsLookup, if_neg hk] using ih h

theorem copyStep_spec (out : String) (fs : OutFs) (f : SrcFile) :
    (qualifies f = false ∧ copyStep out fs f = fs) ∨
    (qualifies f = true ∧ ∃ d, destOf out f = some d ∧
      (((∃ v, fsLookup fs d = some v) ∧ copyStep out fs f = fs) ∨
       (fsLookup fs d = none ∧ copyStep out fs f = fs ++ [(d, srcPathStr f)]))) := by
  rcases hs : subjOf f.parts with _ | ⟨subj, fname⟩
  · left
    refine ⟨?_, ?_⟩
    · unfold qualifies; rw [hs]
    · unfold copyStep; rw [hs]
  · rcases hr : f.read with e | sf
    · left
      refine ⟨?_, ?_⟩
      · unfold qualifies; rw [hs, hr]
      · unfold copyStep; rw [hs, hr]
    · by_cases hsf : sf > 1000
      · right
        refine ⟨?_, destPath out subj fname, ?_, ?_⟩
        · unfold qualifies; rw [hs, hr]; simpa using hsf
        · unfold destOf; rw [hs]
        · cases hl : fsLookup fs (destPath out subj fname) with
          | none =>
            right
            refine ⟨rfl, ?_⟩
            unfold copyStep
            rw [hs, hr]
            dsimp only
            rw [if_pos hsf, hl]
          | some v =>
            left
            refine ⟨⟨v, rfl⟩, ?_⟩
            unfold copyStep
            rw [hs, hr]
            dsimp only
            rw [if_pos hsf, hl]
      · left
        refine ⟨?_, ?_⟩
        · unfold qualifies; rw [hs, hr]; simpa using hsf
        · unfold copyStep; rw [hs, hr]; dsimp only; rw [if_neg hsf]

theorem copyStep_preserves {out : String} {fs : OutFs} {f : SrcFile} {p v : String}
    (h : fsLookup fs p = some v) : fsLookup (copyStep out fs f) p = some v := by
  rcases copyStep_spec out fs f with ⟨_, he⟩ | ⟨_, d, _, ⟨_, he⟩ | ⟨_, he⟩⟩
  · rw [he]; exact h
  · rw [he]; exact h
  · rw [he]; exact fsLookup_append_left h

theorem copier_preserves {out : String} :
    ∀ {files : List SrcFile} {fs : OutFs} {p v : String}, fsLookup fs p = some v →
      fsLookup (copy_selecetd_files out files fs) p = some v := by
  intro files
  induction files with
  | nil => intro fs p v h; exact h
  | cons f rest ih =>
    intro fs p v h
    show fsLookup (List.foldl (copyStep out) (copyStep out fs f) rest) p = some v
    exact ih (copyStep_preserves h)

theorem copyStep_dest_present {out : String} {fs : OutFs} {f : SrcFile} {d : String}
    (hq : qualifies f = true) (hd : destOf out f = some d) :
    ∃ v, fsLookup (copyStep out fs f) d = some v := by
  rcases copyStep_spec out fs f with ⟨hq2, _⟩ | ⟨_, d2, hd2, ⟨⟨v, hv⟩, he⟩ | ⟨hl, he⟩⟩
  · rw [hq] at hq2; exact absurd hq2 (by simp)
  · rw [hd] at hd2
    obtain rfl : d2 = d := by injection hd2.symm
    exact ⟨v, by rw [he]; exact hv⟩
  · rw [hd] at hd2
    obtain rfl : d2 = d := by injection hd2.symm
    exact ⟨srcPathStr f, by rw [he]; exact fsLookup_append_new hl⟩

theorem copier_dest_present {out : String} :
    ∀ {files : List SrcFile} {fs : OutFs} {f : SrcFile} {d : String}, f ∈ files →
      qualifies f = true → destOf out f = some d →
      ∃ v, fsLookup (copy_selecetd_files out files fs) d = some v := by
  intro files
  induction files with
  | nil => intro fs f d hf; exact absurd hf (by simp)
  | cons f0 rest ih =>
    intro fs f d hf hq hd
    show ∃ v, fsLookup (List.foldl (copyStep out) (copyStep out fs f0) rest) d = some v
    rcases List.mem_cons.mp hf with rfl | hf2
    · obtain ⟨v, hv⟩ := @copyStep_dest_present out fs f d hq hd
      exact ⟨v, copier_preserves hv⟩
    · exact ih hf2 hq hd

theorem copier_noop {out : String} :
    ∀ {files : List SrcFile} {fs : OutFs},
      (∀ f ∈ files, qualifies f = true → ∀ d, destOf out f = some d →
        ∃ v, fsLookup fs d = some v) →
      copy_selecetd_files out files fs = fs := by
  intro files
  induction files with
  | nil => intro fs _; rfl
  | cons f0 rest ih =>
    intro fs h
    have hstep : copyStep out fs f0 = fs := by
      rcases copyStep_spec out fs f0 with ⟨_, he⟩ | ⟨hq, d, hd, ⟨_, he⟩ | ⟨hl, _⟩⟩
      · exact he
      · exact he
      · obtain ⟨v, hv⟩ := h f0 (List.mem_cons_self f0 rest) hq d hd
        rw [hl] at hv
        exact absurd hv (by simp)
    show List.foldl (copyStep out) (copyStep out fs f0) rest = fs
    rw [hstep]
    exact ih (fun f hf => h f (List.mem_cons_of_mem f0 hf))

/-! ## Claim theorems -/

/-- C3: when the valid-directories cache CSV exists, get_valid_directories
returns its rows verbatim as a pure read, performing zero directory scans
and zero codec opens and leaving the cache unchanged; consequently a
second call after a first scanning run returns the first run's rows, with
a byte-identical cache file and no codec or filesystem work. -/
theorem scanner_cache_pure_read (s : List String)
    (files files2 : List (String × TrcRead)) :
    get_valid_directories (some s) files =
      { result := s, codecOpens := 0, dirScans := 0, cacheAfter := some s } ∧
    (get_valid_directories (get_valid_directories none files).cacheAfter files2).result =
      (get_valid_directories none files).result ∧
    (get_valid_directories (get_valid_directories none files).cacheAfter files2).codecOpens = 0 ∧
    (get_valid_directories (get_valid_directories none files).cacheAfter files2).dirScans = 0 ∧
    (get_valid_directories (get_valid_directories none files).cacheAfter files2).cacheAfter =
      (get_valid_directories none files).cacheAfter := by
  refine ⟨rfl, ?_, ?_, ?_, ?_⟩ <;> rfl

/-- C10: when the combined manifest CSV does not exist, the sampler run
ends in the unhandled NameError raised at the final to_csv on the
never-assigned selection table, and no selected-files output is
produced. -/
theorem sampler_missing_manifest_raises (sep : Char) :
    sampler_main sep none =
      Except.error "NameError: name clae_files_df is not defined" ∧
    ∀ out, sampler_main sep none ≠ Except.ok out :=
  ⟨rfl, fun _ h => Except.noConfusion h⟩

/-- C5: the target day of every group equals min(3, max day present in
the group); a group whose candidate set is empty contributes no row, and
the sampler run still ends successfully. -/
theorem sampler_target_day_min (rows : List FileRow) (sep : Char) :
    targetDay rows = min 3 (maxDay rows) ∧
    (dayCandidates rows = [] → select_for_group rows = none) ∧
    ∃ out, sampler_main sep (some rows) = Except.ok out := by
  refine ⟨?_, ?_, ⟨select_rows sep rows, rfl⟩⟩
  · unfold targetDay
    split <;> omega
  · intro h
    unfold select_for_group
    rw [h]

/-- Witness for C5: a group whose maximum day is 1 gets target day 1
(not 3), its candidate set is empty since no row lasts over 4 h, so the
group yields no selection and the run returns an empty table. -/
theorem sampler_target_day_min_witness :
    targetDay groupMaxDay1 = min 3 (maxDay groupMaxDay1) ∧
    select_for_group groupMaxDay1 = none ∧
    sampler_main '/' (some groupMaxDay1) = Except.ok [] :=
  ⟨(sampler_target_day_min groupMaxDay1 '/').1,
   (sampler_target_day_min groupMaxDay1 '/').2.1 (by decide),
   by decide⟩

/-- C2 counterexample: a group with rows on days 0 and 5 only, whose
day-5 row lasts 10 h, yields NO selection: the target day stays 3
because the max day is not below 3, the day-3 candidate set is empty,
and the sampler does not fall back to the latest available day even
though a qualifying latest-day row exists. -/
theorem sampler_no_latest_day_fallback_counterexample :
    select_for_group groupBeyondDay3 = none ∧
    maxDay groupBeyondDay3 = 5 ∧
    rowDay5 ∈ groupBeyondDay3 ∧ rowDay5.day = 5 ∧ rowDay5.duration_h > 4 := by
  refine ⟨by decide, by decide, by decide, by decide, by decide⟩

/-- C2 (amended): every selected row comes from the candidate set (rows
at the target day lasting over 4 h); the fallback moves the target to
the max day exactly when the max day is below 3, and a group with an
empty candidate set yields no selection. -/
theorem sampler_selection_policy (rows : List FileRow) :
    (∀ r, select_for_group rows = some r → r ∈ dayCandidates rows) ∧
    (maxDay rows < 3 → targetDay rows = maxDay rows) ∧
    (3 ≤ maxDay rows → targetDay rows = 3) ∧
    (dayCandidates rows = [] → select_for_group rows = none) :=
  ⟨fun _ h => select_for_group_mem h,
   fun h => by unfold targetDay; rw [if_pos h],
   fun h => by unfold targetDay; rw [if_neg (Nat.not_lt.mpr h)],
   fun h => by unfold select_for_group; rw [h]⟩

/-- Witness for C2: a group with one 5 h day-3 row selects it from the
day-3 candidate set, with target day 3. -/
theorem sampler_selection_policy_witness :
    rowDay3a ∈ dayCandidates groupOneDay3 ∧ targetDay groupOneDay3 = 3 :=
  ⟨(sampler_selection_policy groupOneDay3).1 rowDay3a (by decide),
   (sampler_selection_policy groupOneDay3).2.2.1 (by decide)⟩

/-- C4: a group whose candidate set has more than one row selects
exactly one row, that row belongs to the candidate set, and the
selection is a deterministic function of the candidate set (the pandas
sample call uses the fixed seed 42, so equal inputs give equal
selections across runs). -/
theorem sampler_fixed_seed_deterministic (rows : List FileRow)
    (h : 1 < (dayCandidates rows).length) :
    ∃ r, select_for_group rows = some r ∧ r ∈ dayCandidates rows ∧
      ∀ rows2, dayCandidates rows2 = dayCandidates rows →
        select_for_group rows2 = some r := by
  cases hc : dayCandidates rows with
  | nil => rw [hc] at h; exact absurd h (by simp)
  | cons a tl =>
    cases tl with
    | nil => rw [hc] at h; exact absurd h (by simp)
    | cons b tl2 =>
      refine ⟨sample1 SAMPLER_SEED a (b :: tl2), ?_, ?_, ?_⟩
      · unfold select_for_group
        rw [hc]
      · exact sample1_mem SAMPLER_SEED a (b :: tl2)
      · intro rows2 h2
        unfold select_for_group
        rw [h2]

/-- Witness for C4: the spec example group (days 0,1,3,3,5 with exactly
the two day-3 rows over 4 h) has a two-row candidate set and the
sampler selects one fixed member of it. -/
theorem sampler_fixed_seed_deterministic_witness :
    1 < (dayCandidates groupTwoDay3).length ∧
    ∃ r, select_for_group groupTwoDay3 = some r ∧ r ∈ dayCandidates groupTwoDay3 ∧
      ∀ rows2, dayCandidates rows2 = dayCandidates groupTwoDay3 →
        select_for_group rows2 = some r :=
  ⟨by decide, sampler_fixed_seed_deterministic groupTwoDay3 (by decide)⟩

theorem gvfi_sorted (dir : String) (files : List (String × TrcRead)) :
    List.Sorted tsLe (get_valid_files_info dir files) := by
  rw [gvfi_eq_map]
  exact List.Pairwise.map _ (fun a b hab => hab)
    (List.sorted_insertionSort tsLe (rawRows dir files))

theorem gvfi_day_eq (dir : String) (files : List (String × TrcRead)) :
    (get_valid_files_info dir files).map (fun r => r.day) =
      (get_valid_files_info dir files).map
        (fun r => (r.recording_date - minTs (get_valid_files_info dir files)) / 1440) := by
  have hmin : minTs ((sortedRows dir files).map (fun r =>
      { r with day := (r.recording_date - minTs (sortedRows dir files)) / 1440 })) =
      minTs (sortedRows dir files) :=
    @minTs_map (fun r =>
      { r with day := (r.recording_date - minTs (sortedRows dir files)) / 1440 })
      (fun r => rfl) (sortedRows dir files)
  rw [gvfi_eq_map, List.map_map, List.map_map, hmin]
  apply List.map_congr_left
  intro r _
  rfl

/-- C1 (amended): the extractor output is sorted by recording timestamp
ascending, and every day value equals the floored number of whole 24 h
periods between the row's timestamp and the minimum timestamp of the
table — the pandas Timedelta .days of the timestamp difference, not the
calendar-date difference. -/
theorem extractor_sorted_and_day_offset (dir : String)
    (files : List (String × TrcRead)) :
    List.Sorted tsLe (get_valid_files_info dir files) ∧
    (get_valid_files_info dir files).map (fun r => r.day) =
      (get_valid_files_info dir files).map
        (fun r => (r.recording_date - minTs (get_valid_files_info dir files)) / 1440) :=
  ⟨gvfi_sorted dir files, gvfi_day_eq dir files⟩

/-- C1 counterexample: two readable recordings at 23:00 of day 0 and
01:00 of day 1 yield day values [0, 0], while the claimed calendar-day
formula (row date minus minimum date) yields [0, 1] — the code floors
the full timestamp difference, two hours here, to 0 days. -/
theorem extractor_day_not_calendar_counterexample :
    (get_valid_files_info "d" midnightFiles).map (fun r => r.day) = [0, 0] ∧
    (get_valid_files_info "d" midnightFiles).map
        (fun r => r.recording_date / 1440 -
          minTs (get_valid_files_info "d" midnightFiles) / 1440) = [0, 1] :=
  ⟨by decide, by decide⟩

/-- C8: a directory with one corrupt file (codec open raises) and two
valid files over 1000 Hz yields exactly two extractor rows, and in
general the number of output rows equals the number of files whose
per-file processing survives, so one bad file never aborts the batch. -/
theorem extractor_error_isolation (dir : String) (c v1 v2 : String × TrcRead)
    (hc : c.2 = Except.error ()) (h1 : (readRow dir v1).isSome = true)
    (h2 : (readRow dir v2).isSome = true) :
    (get_valid_files_info dir [c, v1, v2]).length = 2 ∧
    ∀ files, (get_valid_files_info dir files).length =
      files.countP (fun f => (readRow dir f).isSome) := by
  refine ⟨?_, gvfi_length dir⟩
  rw [gvfi_length dir [c, v1, v2]]
  have hcnone : readRow dir c = none := by
    unfold readRow
    rw [hc]
  simp [List.countP_cons, List.countP_nil, hcnone, h1, h2]

/-- Witness for C8: a concrete corrupt file next to two valid 2000 Hz
files yields exactly two rows. -/
theorem extractor_error_isolation_witness :
    (get_valid_files_info "d" [corruptFile, goodFileA, goodFileB]).length = 2 :=
  (extractor_error_isolation "d" corruptFile goodFileA goodFileB rfl
    (by decide) (by decide)).1

/-- C6 counterexample: with output directory "out dir" (containing a
space), subject "Pat 1" and filename "rec 1.trc", the computed
destination is "out_dir/Pat_1_rec_1.trc": the space replacement is
applied to the whole path string, so the destination is NOT the
sanitized filename inside the given output directory — its first eight
characters are not "out dir/". -/
theorem copier_space_output_dir_counterexample :
    destPath "out dir" "Pat 1" "rec 1.trc" = "out_dir/Pat_1_rec_1.trc" ∧
    destPath "out dir" "Pat 1" "rec 1.trc" ≠
      "out dir" ++ "/" ++ replaceSpaces ("Pat 1" ++ "_" ++ "rec 1.trc") ∧
    (destPath "out dir" "Pat 1" "rec 1.trc").data.take 8 ≠ ("out dir/").data :=
  ⟨by decide, by decide, by decide⟩

/-- C6 (amended): every qualifying file not already present at its
destination is copied to destPath, which equals the space-sanitized
output directory joined with the space-sanitized
subject_filename name; only when the output directory path itself
contains no space is the destination the given output directory plus
the sanitized name. -/
theorem copier_destination_shape (out subj fname : String) (f : SrcFile)
    (fs : OutFs) (sf : ℚ)
    (hsub : subjOf f.parts = some (subj, fname)) (hread : f.read = Except.ok sf)
    (hsf : sf > 1000) (habs : fsLookup fs (destPath out subj fname) = none) :
    fsLookup (copyStep out fs f) (destPath out subj fname) = some (srcPathStr f) ∧
    destPath out subj fname =
      replaceSpaces out ++ "/" ++ (replaceSpaces subj ++ "_" ++ replaceSpaces fname) ∧
    ((' ' : Char) ∉ out.data →
      destPath out subj fname =
        out ++ "/" ++ (replaceSpaces subj ++ "_" ++ replaceSpaces fname)) := by
  have hslash : replaceSpaces "/" = "/" := by decide
  have hund : replaceSpaces "_" = "_" := by decide
  have hshape : destPath out subj fname =
      replaceSpaces out ++ "/" ++ (replaceSpaces subj ++ "_" ++ replaceSpaces fname) := by
    unfold destPath
    rw [replaceSpaces_append, replaceSpaces_append, replaceSpaces_append,
      replaceSpaces_append, hslash, hund]
  refine ⟨?_, hshape, fun hns => by rw [hshape, replaceSpaces_of_no_space hns]⟩
  unfold copyStep
  rw [hsub, hread]
  dsimp only
  rw [if_pos hsf, habs]
  exact fsLookup_append_new habs

/-- Witness for C6: a 2000 Hz file of subject Pat 1 is copied into an
output directory without spaces, landing at the sanitized destination
with content copied from the source path. -/
theorem copier_destination_shape_witness :
    fsLookup (copyStep "out" preexistingFs copierFile)
        (destPath "out" "Pat 1" "rec 1.trc") = some (srcPathStr copierFile) ∧
    destPath "out" "Pat 1" "rec 1.trc" =
      replaceSpaces "out" ++ "/" ++
        (replaceSpaces "Pat 1" ++ "_" ++ replaceSpaces "rec 1.trc") :=
  ⟨(copier_destination_shape "out" "Pat 1" "rec 1.trc" copierFile preexistingFs 2000
      (by decide) rfl (by decide) (by decide)).1,
   (copier_destination_shape "out" "Pat 1" "rec 1.trc" copierFile preexistingFs 2000
      (by decide) rfl (by decide) (by decide)).2.1⟩

/-- C7: the copier is idempotent — a second run over the same listing
changes nothing, and files already present in the output directory are
never overwritten. -/
theorem copier_idempotent (out : String) (files : List SrcFile) (fs : OutFs) :
    copy_selecetd_files out files (copy_selecetd_files out files fs) =
      copy_selecetd_files out files fs ∧
    ∀ p v, fsLookup fs p = some v →
      fsLookup (copy_selecetd_files out files fs) p = some v := by
  refine ⟨?_, fun p v h => copier_preserves h⟩
  apply copier_noop
  intro f hf hq d hd
  exact copier_dest_present hf hq hd

/-- Witness for C7: running the copier twice on one qualifying file over
a pre-populated output directory changes nothing the second time and
keeps the pre-existing file intact. -/
theorem copier_idempotent_witness :
    copy_selecetd_files "out" [copierFile]
        (copy_selecetd_files "out" [copierFile] preexistingFs) =
      copy_selecetd_files "out" [copierFile] preexistingFs ∧
    fsLookup (copy_selecetd_files "out" [copierFile] preexistingFs) "keep.trc" =
      some "old" :=
  ⟨(copier_idempotent "out" [copierFile] preexistingFs).1,
   (copier_idempotent "out" [copierFile] preexistingFs).2 "keep.trc" "old" (by decide)⟩

/-- C9 counterexample: the distinct directories a/b-c and a-b/c receive
the same normalized key a-b-c, so the sampler merges their rows into a
single group: the colliding manifest has exactly one patient key and its
group contains the rows of both directories. -/
theorem sampler_key_collision_counterexample :
    ("a/b-c" : String) ≠ "a-b/c" ∧
    normKey '/' "a/b-c" = normKey '/' "a-b/c" ∧
    patKeys '/' collidingManifest = ["a-b-c"] ∧
    groupRows '/' collidingManifest "a-b-c" = collidingManifest ∧
    rowDirSlashHyphen.directory ≠ rowDirHyphenSlash.directory :=
  ⟨by decide, by decide, by decide, by decide, by decide⟩

/-- C9 (amended): on manifests whose directory paths contain no hyphen,
the normalized key is injective — distinct directories get distinct
keys, every group contains rows of a single directory — and the sampler
emits at most one selected row per distinct key. -/
theorem sampler_group_key_injective_on_hyphen_free (sep : Char)
    (rows : List FileRow)
    (h : ∀ r ∈ rows, ('-' : Char) ∉ r.directory.data) :
    (∀ r1 ∈ rows, ∀ r2 ∈ rows,
      normKey sep r1.directory = normKey sep r2.directory →
        r1.directory = r2.directory) ∧
    (∀ k r1 r2, r1 ∈ groupRows sep rows k → r2 ∈ groupRows sep rows k →
      r1.directory = r2.directory) ∧
    (select_rows sep rows).length ≤ (patKeys sep rows).length := by
  refine ⟨fun r1 h1 r2 h2 hk => normKey_inj (h r1 h1) (h r2 h2) hk, ?_, ?_⟩
  · intro k r1 r2 hm1 hm2
    obtain ⟨hr1, hk1⟩ := mem_groupRows hm1
    obtain ⟨hr2, hk2⟩ := mem_groupRows hm2
    exact normKey_inj (h r1 hr1) (h r2 hr2) (hk1.trans hk2.symm)
  · exact List.length_filterMap_le _ _

/-- Witness for C9: a hyphen-free manifest with two rows of directory
a/b — both rows of the a-b group indeed come from one directory, and the
selection has at most one row per key. -/
theorem sampler_group_key_injective_witness :
    rowAB1.directory = rowAB2.directory ∧
    (select_rows '/' hyphenFreeManifest).length ≤
      (patKeys '/' hyphenFreeManifest).length :=
  ⟨(sampler_group_key_injective_on_hyphen_free '/' hyphenFreeManifest
      (by decide)).2.1 (normKey '/' "a/b") rowAB1 rowAB2 (by decide) (by decide),
   (sampler_group_key_injective_on_hyphen_free '/' hyphenFreeManifest
      (by decide)).2.2⟩

/-- Witness for C10: with any concrete separator, the run on a missing
manifest ends in the NameError. -/
theorem sampler_missing_manifest_raises_witness :
    sampler_main '/' none =
      Except.error "NameError: name clae_files_df is not defined" :=
  (sampler_missing_manifest_raises '/').1
